import Mathlib

/-!
Verification of the recommendation engine in `lambda_infer.py`
(repository `AWS-Compatability-check`).

The engine is the function `recommend_instance(current_instance_type,
required_vcpus, required_memory_mib, required_gpus, instances_df,
matrix_df, top_n)`.  We embed it shallowly:

* the catalog dataframe, after `set_index('InstanceType').to_dict(orient='index')`,
  becomes an association list from instance names to rows; a row is a record of
  the three resource columns, each optional because `inst.get("vCPUs", 0)`
  defaults a missing column to `0`;
* the interchangeability dataframe becomes an association list from row labels
  to rows of `(column label, Bool)` pairs, iterated in column order exactly as
  `matrix_df.loc[current].items()` does;
* Python's `candidates.sort(key=lambda x: x["Score"])` is a stable sort by the
  score.  We keep the exact squared distance (a rational) as the sort key:
  `math.sqrt` is strictly monotone on nonnegative reals, so under exact
  arithmetic sorting by the squared distance and sorting by the distance give
  the same stable order.  A stable sort by a total preorder is a uniquely
  determined function of the input list, so Mathlib's stable
  `List.insertionSort` computes precisely the list Python's stable sort does;
* `raise ValueError(...)` becomes `Except.error`, the two `return {"error": ...}`
  sites become the two non-ranked constructors of `RecOutcome`, with the very
  message strings the Python code formats.
-/

namespace AWSCompat

/-- One row of the catalog after `to_dict(orient='index')`: the three resource
columns, each `Option` because a column absent from the CSV is absent from the
row dict and `inst.get(col, 0)` then defaults it. -/
structure InstRow where
  vCPUs : Option Int
  memoryMiB : Option Int
  gpus : Option Int
deriving DecidableEq, Repr

/-- The `name_map` built by `instances_df.set_index('InstanceType').to_dict(orient='index')`:
instance-type name to row (keys unique per the data model). -/
abbrev Catalog := List (String × InstRow)

/-- One row of the interchangeability matrix: `(column label, cell)` pairs in
column order, as produced by `matrix_df.loc[current].items()`. -/
abbrev MatrixRow := List (String × Bool)

/-- The interchangeability matrix `matrix_df` with string row labels:
row label to row. -/
abbrev CompatMatrix := List (String × MatrixRow)

/-- A scored candidate, as appended to `candidates` in the Python loop.
`score2` is the exact square of the float `Score = math.sqrt(...)` the code
stores; the square root is taken in the theorems about the score. -/
structure Candidate where
  instanceType : String
  vCPUs : Int
  memoryMiB : Int
  gpus : Int
  score2 : ℚ
deriving DecidableEq, Repr

instance : Inhabited Candidate := ⟨⟨"", 0, 0, 0, 0⟩⟩

/-- The outcome of `recommend_instance` when it does not raise: the two
`return {"error": ...}` sites, and the ranked dictionary of the final
`return`. -/
inductive RecOutcome where
  | noInterchangeable (message : String)
  | noFeasible (message : String)
  | ranked (current : String) (requestedVcpus requestedMemoryMib requestedGpus : Int)
      (best : Candidate) (topN : List Candidate)
deriving DecidableEq, Repr

/-- The list comprehension
`[str(name) for name, ok in interchangeable_series.items() if bool(ok) and str(name) != current_instance_type]`. -/
def compatibleNames (current_instance_type : String) (interchangeable_series : MatrixRow) :
    List String :=
  interchangeable_series.filterMap fun p =>
    if p.2 && (p.1 != current_instance_type) then some p.1 else none

/-- The body of the candidate loop once the row dict `inst` is at hand:
read the three columns with default `0`, drop the row unless
`vcpu >= required_vcpus and mem >= required_memory_mib and gpu >= required_gpus`,
otherwise build the candidate whose float score is
`math.sqrt((vcpu-rv)**2 + (mem/1024 - rm/1024)**2 + (gpu-rg)**2)`;
we record the exact square of that score. -/
def scoreRow (required_vcpus required_memory_mib required_gpus : Int)
    (target : String) (inst : InstRow) : Option Candidate :=
  let vcpu := inst.vCPUs.getD 0
  let mem := inst.memoryMiB.getD 0
  let gpu := inst.gpus.getD 0
  if vcpu < required_vcpus ∨ mem < required_memory_mib ∨ gpu < required_gpus then
    none
  else
    some { instanceType := target, vCPUs := vcpu, memoryMiB := mem, gpus := gpu,
           score2 := ((vcpu : ℚ) - (required_vcpus : ℚ)) ^ 2
             + ((mem : ℚ) / 1024 - (required_memory_mib : ℚ) / 1024) ^ 2
             + ((gpu : ℚ) - (required_gpus : ℚ)) ^ 2 }

/-- One iteration of `for target in compatible_names`: `inst = name_map.get(target)`,
then `if not inst: continue`.  `not inst` is true both when the name is absent
(`None`) and when the row dict is empty, i.e. when all three resource columns
are absent; then the row is scored. -/
def evalCandidate (required_vcpus required_memory_mib required_gpus : Int)
    (name_map : Catalog) (target : String) : Option Candidate :=
  match name_map.lookup target with
  | none => none
  | some inst =>
    if inst.vCPUs.isNone && inst.memoryMiB.isNone && inst.gpus.isNone then none
    else scoreRow required_vcpus required_memory_mib required_gpus target inst

/-- The whole candidate loop: the `candidates` list, in the order the names are
encountered in the compatible set. -/
def candidatesFor (required_vcpus required_memory_mib required_gpus : Int)
    (name_map : Catalog) (compatible_names : List String) : List Candidate :=
  compatible_names.filterMap
    (evalCandidate required_vcpus required_memory_mib required_gpus name_map)

/-- The comparison underlying `candidates.sort(key=lambda x: x["Score"])`:
squared scores compare the same way the float scores do. -/
def scoreLE (a b : Candidate) : Prop := a.score2 ≤ b.score2

instance : DecidableRel scoreLE :=
  fun a b => inferInstanceAs (Decidable (a.score2 ≤ b.score2))

instance : IsTotal Candidate scoreLE := ⟨fun a b => le_total a.score2 b.score2⟩

instance : IsTrans Candidate scoreLE := ⟨fun _ _ _ => le_trans⟩

/-- The engine `recommend_instance` of `lambda_infer.py`.  Control flow in
source order: the two `raise ValueError` guards, the compatible-name
comprehension with its empty check, the candidate loop with its empty check,
then the stable sort, `best = candidates[0]`, `top = candidates[:top_n]`. -/
def recommend_instance (current_instance_type : String)
    (required_vcpus required_memory_mib required_gpus : Int)
    (instances_df : Catalog) (matrix_df : CompatMatrix) (top_n : Nat) :
    Except String RecOutcome :=
  if (instances_df.lookup current_instance_type).isNone then
    Except.error s!"Current instance {current_instance_type} not found in catalog."
  else
    match matrix_df.lookup current_instance_type with
    | none =>
      Except.error s!"{current_instance_type} not found in interchangeability matrix index."
    | some interchangeable_series =>
      match compatibleNames current_instance_type interchangeable_series with
      | [] =>
        Except.ok (RecOutcome.noInterchangeable
          s!"No interchangeable instances found for {current_instance_type}.")
      | t :: ts =>
        match candidatesFor required_vcpus required_memory_mib required_gpus
            instances_df (t :: ts) with
        | [] =>
          Except.ok (RecOutcome.noFeasible
            s!"No compatible instance meets requirements (vCPU≥{required_vcpus}, Mem≥{required_memory_mib} MiB, GPU≥{required_gpus}).")
        | c :: cs =>
          Except.ok (RecOutcome.ranked current_instance_type
            required_vcpus required_memory_mib required_gpus
            (((c :: cs).insertionSort scoreLE).headI)
            (((c :: cs).insertionSort scoreLE).take top_n))

instance {ε α : Type} [DecidableEq ε] [DecidableEq α] : DecidableEq (Except ε α)
  | .error a, .error b =>
      if h : a = b then .isTrue (by rw [h]) else .isFalse (by simp [h])
  | .error _, .ok _ => .isFalse (by simp)
  | .ok _, .error _ => .isFalse (by simp)
  | .ok a, .ok b =>
      if h : a = b then .isTrue (by rw [h]) else .isFalse (by simp [h])

/-- Scenario A of the design notes: three catalog rows. -/
def demoCatalog : Catalog :=
  [("A", ⟨some 4, some 8192, some 0⟩),
   ("B", ⟨some 8, some 16384, some 0⟩),
   ("C", ⟨some 4, some 8192, some 0⟩)]

/-- Scenario A matrix: row `A` allows `B` and `C`. -/
def demoMatrix : CompatMatrix := [("A", [("B", true), ("C", true)])]

/-- The candidate built for `B` at requirement `(4, 8192, 0)`:
score² = (8-4)² + (16-8)² = 80. -/
def candB : Candidate := ⟨"B", 8, 16384, 0, 80⟩

/-- The candidate built for `C` at requirement `(4, 8192, 0)`: exact match. -/
def candC : Candidate := ⟨"C", 4, 8192, 0, 0⟩

/-- A pandas axis label as the caller's `matrix_df` holds it, before the
`astype(str)` coercion at the top of `recommend_instance`: the matrix CSV's
first column may be numeric, in which case `set_index` leaves integer
labels. -/
inductive RawLabel where
  | intLabel (n : Int)
  | strLabel (s : String)
deriving DecidableEq, Repr

/-- Python's `str(...)` of a label, the function `astype(str)` maps over the
axis. -/
def RawLabel.pyStr : RawLabel → String
  | .intLabel n => toString n
  | .strLabel s => s

/-- The `astype(str)` coercion of one label. -/
def RawLabel.astypeStr (l : RawLabel) : RawLabel := .strLabel l.pyStr

/-- The matrix as the caller holds it: row labels and column labels of any
label type. -/
abbrev RawMatrix := List (RawLabel × List (RawLabel × Bool))

/-- The value of the caller's `matrix_df` once `recommend_instance` returns:
the first two statements of the function assign `matrix_df.index.astype(str)`
and `matrix_df.columns.astype(str)` back onto the caller's dataframe object,
mutating it in place. -/
def matrixAfterCall (m : RawMatrix) : RawMatrix :=
  m.map fun p => (p.1.astypeStr, p.2.map fun q => (q.1.astypeStr, q.2))

/-- The string-keyed view of the matrix that the rest of the function works
with after the coercion. -/
def stringKeyMatrix (m : RawMatrix) : CompatMatrix :=
  m.map fun p => (p.1.pyStr, p.2.map fun q => (q.1.pyStr, q.2))

/-- `recommend_instance` taking the matrix as the caller holds it, with the
in-place mutation of `matrix_df` made explicit as state passing: the second
component is the value of the caller's `matrix_df` when the call returns. -/
def recommend_instance_raw (current_instance_type : String)
    (required_vcpus required_memory_mib required_gpus : Int)
    (instances_df : Catalog) (matrix_df : RawMatrix) (top_n : Nat) :
    Except String RecOutcome × RawMatrix :=
  (recommend_instance current_instance_type required_vcpus required_memory_mib required_gpus
      instances_df (stringKeyMatrix matrix_df) top_n,
   matrixAfterCall matrix_df)

/-- A row dict with every field read through `get(col, 0)` materialised:
the loop body reads row fields only through these defaults. -/
def fill0 (inst : InstRow) : InstRow :=
  ⟨some (inst.vCPUs.getD 0), some (inst.memoryMiB.getD 0), some (inst.gpus.getD 0)⟩

/-- A relation row that marks only the source itself: the compatible set comes
out empty. -/
def demoMatrixSelf : CompatMatrix := [("A", [("A", true)])]

/-- The row dict of a catalog CSV that has only the `InstanceType` column:
empty, hence falsy in Python. -/
def rowEmpty : InstRow := ⟨none, none, none⟩

/-- A catalog whose CSV has only the `InstanceType` column. -/
def namesOnlyCatalog : Catalog := [("A", rowEmpty), ("E", rowEmpty)]

/-- A relation row for `A` that allows only `E`. -/
def demoMatrixE : CompatMatrix := [("A", [("E", true)])]

/-- A raw matrix with an integer row and column label, as a numeric first CSV
column yields. -/
def rawIntMatrix : RawMatrix := [(RawLabel.intLabel 1, [(RawLabel.intLabel 1, false)])]

/-- A raw matrix whose labels are already strings. -/
def rawStrMatrix : RawMatrix := [(RawLabel.strLabel "A", [(RawLabel.strLabel "B", true)])]

/-- A row whose CSV lacks the `GPUs` column. -/
def instD : InstRow := ⟨some 2, some 1024, none⟩

/-- A catalog in which `D`'s row misses the `GPUs` field. -/
def demoCatalogD : Catalog := [("A", ⟨some 1, some 1024, some 0⟩), ("D", instD)]

/-- Evaluating the loop body on `B` at the Scenario A requirement. -/
theorem evalB : evalCandidate 4 8192 0 demoCatalog "B" = some candB := by
  unfold evalCandidate scoreRow
  norm_num [show demoCatalog.lookup "B" = some ⟨some 8, some 16384, some 0⟩ from rfl, candB]

/-- Evaluating the loop body on `C` at the Scenario A requirement. -/
theorem evalC : evalCandidate 4 8192 0 demoCatalog "C" = some candC := by
  unfold evalCandidate scoreRow
  norm_num [show demoCatalog.lookup "C" = some ⟨some 4, some 8192, some 0⟩ from rfl, candC]

/-- The Scenario A candidate list, in first-seen order `B` then `C`. -/
theorem candsA : candidatesFor 4 8192 0 demoCatalog ["B", "C"] = [candB, candC] := by
  simp [candidatesFor, List.filterMap_cons, evalB, evalC]

/-- The Scenario A run of the engine, for every limit `k`: best is the exact
match `C`, the top list is the first `k` of `[C, B]`. -/
theorem runA (k : Nat) :
    recommend_instance "A" 4 8192 0 demoCatalog demoMatrix k
      = Except.ok (RecOutcome.ranked "A" 4 8192 0 candC ([candC, candB].take k)) := by
  unfold recommend_instance
  rw [show demoMatrix.lookup "A" = some [("B", true), ("C", true)] from rfl]
  norm_num [show demoCatalog.lookup "A" = some ⟨some 4, some 8192, some 0⟩ from rfl,
    show compatibleNames "A" [("B", true), ("C", true)] = ["B", "C"] from by decide,
    candsA, show List.insertionSort scoreLE [candB, candC] = [candC, candB] from by decide]
  simp [show ¬ scoreLE candB candC from by decide]

/-- Inversion of the loop body: a candidate built by `scoreRow` carries the
target's name, the defaulted field values, meets all three thresholds, and its
squared score is the squared Euclidean distance with memory scaled by 1024. -/
theorem scoreRow_eq_some {rv rm rg : Int} {t : String} {inst : InstRow} {c : Candidate}
    (h : scoreRow rv rm rg t inst = some c) :
    c.instanceType = t ∧ c.vCPUs = inst.vCPUs.getD 0 ∧ c.memoryMiB = inst.memoryMiB.getD 0 ∧
      c.gpus = inst.gpus.getD 0 ∧ rv ≤ c.vCPUs ∧ rm ≤ c.memoryMiB ∧ rg ≤ c.gpus ∧
      c.score2 = ((c.vCPUs : ℚ) - (rv : ℚ)) ^ 2
        + ((c.memoryMiB : ℚ) / 1024 - (rm : ℚ) / 1024) ^ 2
        + ((c.gpus : ℚ) - (rg : ℚ)) ^ 2 := by
  simp only [scoreRow] at h
  split at h
  · exact absurd h (by simp)
  · next hcond =>
    push_neg at hcond
    obtain ⟨h1, h2, h3⟩ := hcond
    obtain rfl := Option.some.inj h
    exact ⟨rfl, rfl, rfl, rfl, h1, h2, h3, rfl⟩

/-- Inversion of one loop iteration: a produced candidate comes from a name
that resolves in the catalog and passes the feasibility filter. -/
theorem mem_candidatesFor {rv rm rg : Int} {df : Catalog} {names : List String} {c : Candidate}
    (h : c ∈ candidatesFor rv rm rg df names) :
    ∃ t ∈ names, ∃ inst, df.lookup t = some inst ∧ scoreRow rv rm rg t inst = some c := by
  unfold candidatesFor at h
  obtain ⟨t, ht, he⟩ := List.mem_filterMap.mp h
  refine ⟨t, ht, ?_⟩
  cases hl : df.lookup t with
  | none => simp only [evalCandidate, hl] at he; exact absurd he (by simp)
  | some inst =>
    simp only [evalCandidate, hl] at he
    split at he
    · exact absurd he (by simp)
    · exact ⟨inst, rfl, he⟩

/-- The compatible set never contains the source: the comprehension keeps only
names different from `current_instance_type`. -/
theorem mem_compatibleNames {cur : String} {row : MatrixRow} {t : String}
    (h : t ∈ compatibleNames cur row) : t ≠ cur := by
  unfold compatibleNames at h
  obtain ⟨p, _, he⟩ := List.mem_filterMap.mp h
  split at he
  · next hcond =>
    obtain rfl := Option.some.inj he
    simp only [Bool.and_eq_true, bne_iff_ne, ne_eq] at hcond
    exact hcond.2
  · cases he

/-- Inversion of a ranked result: the payload echoes the inputs, the candidate
list is non-empty, `best` is the head of the stably sorted candidate list and
`top` its `top_n`-prefix. -/
theorem recommend_ranked_inv {cur cur₁ : String} {rv rm rg rv₁ rm₁ rg₁ : Int}
    {df : Catalog} {m : CompatMatrix} {tn : Nat} {best : Candidate} {top : List Candidate}
    (h : recommend_instance cur rv rm rg df m tn
      = Except.ok (RecOutcome.ranked cur₁ rv₁ rm₁ rg₁ best top)) :
    cur₁ = cur ∧ rv₁ = rv ∧ rm₁ = rm ∧ rg₁ = rg ∧
    ∃ row, m.lookup cur = some row ∧
      candidatesFor rv rm rg df (compatibleNames cur row) ≠ [] ∧
      best = ((candidatesFor rv rm rg df (compatibleNames cur row)).insertionSort scoreLE).headI ∧
      top = ((candidatesFor rv rm rg df (compatibleNames cur row)).insertionSort scoreLE).take tn := by
  unfold recommend_instance at h
  split at h
  · cases h
  · cases hm : m.lookup cur with
    | none => simp only [hm] at h; exact absurd h (by simp)
    | some row =>
      simp only [hm] at h
      cases hcn : compatibleNames cur row with
      | nil => simp only [hcn] at h; exact absurd h (by simp)
      | cons t ts =>
        simp only [hcn] at h
        cases hcf : candidatesFor rv rm rg df (t :: ts) with
        | nil => simp only [hcf] at h; exact absurd h (by simp)
        | cons c cs =>
          simp only [hcf, Except.ok.injEq, RecOutcome.ranked.injEq] at h
          obtain ⟨hcur, hrv, hrm, hrg, hbest, htop⟩ := h
          subst hcur hrv hrm hrg
          refine ⟨rfl, rfl, rfl, rfl, row, rfl, ?_, ?_, ?_⟩
          · rw [hcn, hcf]; simp
          · rw [hcn, hcf]; exact hbest.symm
          · rw [hcn, hcf]; exact htop.symm

/-- C1: for every valid invocation that returns a ranked result, every entry of
`top` satisfies all three thresholds (`vCPUs ≥ requiredVCPUs`,
`memoryMiB ≥ requiredMemoryMiB`, `gpus ≥ requiredGPUs`), and a catalog row
failing any threshold is dropped by the loop before scoring. -/
theorem top_entries_meet_thresholds {cur cur₁ : String} {rv rm rg rv₁ rm₁ rg₁ : Int}
    {df : Catalog} {m : CompatMatrix} {tn : Nat} {best : Candidate} {top : List Candidate}
    (h : recommend_instance cur rv rm rg df m tn
      = Except.ok (RecOutcome.ranked cur₁ rv₁ rm₁ rg₁ best top)) :
    (∀ c ∈ top, rv ≤ c.vCPUs ∧ rm ≤ c.memoryMiB ∧ rg ≤ c.gpus) ∧
    (∀ t inst, df.lookup t = some inst →
      inst.vCPUs.getD 0 < rv ∨ inst.memoryMiB.getD 0 < rm ∨ inst.gpus.getD 0 < rg →
      evalCandidate rv rm rg df t = none) := by
  obtain ⟨-, -, -, -, row, -, -, -, htop⟩ := recommend_ranked_inv h
  constructor
  · intro c hc
    rw [htop] at hc
    have hc2 : c ∈ (candidatesFor rv rm rg df (compatibleNames cur row)).insertionSort scoreLE :=
      (List.take_sublist _ _).subset hc
    rw [List.mem_insertionSort] at hc2
    obtain ⟨t, -, inst, -, hs⟩ := mem_candidatesFor hc2
    obtain ⟨-, -, -, -, h5, h6, h7, -⟩ := scoreRow_eq_some hs
    exact ⟨h5, h6, h7⟩
  · intro t inst hl hbad
    simp only [evalCandidate, hl]
    split
    · rfl
    · simp only [scoreRow]
      rw [if_pos hbad]

/-- C1 witness: the thresholds claim at the concrete Scenario A run. -/
theorem top_entries_meet_thresholds_witness :
    (recommend_instance "A" 4 8192 0 demoCatalog demoMatrix 3
      = Except.ok (RecOutcome.ranked "A" 4 8192 0 candC [candC, candB])) ∧
    (∀ c ∈ [candC, candB], (4:Int) ≤ c.vCPUs ∧ (8192:Int) ≤ c.memoryMiB ∧ (0:Int) ≤ c.gpus) := by
  have hr : recommend_instance "A" 4 8192 0 demoCatalog demoMatrix 3
      = Except.ok (RecOutcome.ranked "A" 4 8192 0 candC [candC, candB]) := by
    rw [runA 3]; rfl
  exact ⟨hr, (top_entries_meet_thresholds hr).1⟩

/-- C2 counterexample: at `top_n = 0` the engine returns a ranked result whose
candidate list is non-empty (best = `C` exists), yet `top = candidates[:0]` is
empty, so `best` is not `top[0]` — `top` has no first element at all. -/
theorem best_not_head_of_top_at_zero_limit :
    recommend_instance "A" 4 8192 0 demoCatalog demoMatrix 0
      = Except.ok (RecOutcome.ranked "A" 4 8192 0 candC []) ∧
    ¬ (([] : List Candidate).head? = some candC) := by
  constructor
  · rw [runA 0]; rfl
  · simp

/-- C2 (amended): on a ranked result `top` is the `top_n`-prefix of the stably
sorted candidate list; it is sorted ascending by score (equivalently by the
float score `sqrt(score2)`); `best` equals `top[0]` whenever `top_n ≥ 1` (for
`top_n = 0` the top list is empty while `best` still exists); and the sort is
stable: candidates with equal scores keep the order in which their names were
first encountered while iterating the relation's row — no secondary sort
key. -/
theorem top_sorted_stable_best_head {cur cur₁ : String} {rv rm rg rv₁ rm₁ rg₁ : Int}
    {df : Catalog} {m : CompatMatrix} {tn : Nat} {best : Candidate} {top : List Candidate}
    (h : recommend_instance cur rv rm rg df m tn
      = Except.ok (RecOutcome.ranked cur₁ rv₁ rm₁ rg₁ best top)) :
    top.Pairwise scoreLE ∧
    top.Pairwise (fun a b => Real.sqrt (a.score2 : ℝ) ≤ Real.sqrt (b.score2 : ℝ)) ∧
    (1 ≤ tn → top.head? = some best) ∧
    ∃ row, m.lookup cur = some row ∧
      top = ((candidatesFor rv rm rg df (compatibleNames cur row)).insertionSort scoreLE).take tn ∧
      ∀ c₁ c₂ : Candidate, c₁.score2 = c₂.score2 →
        List.Sublist [c₁, c₂] (candidatesFor rv rm rg df (compatibleNames cur row)) →
        List.Sublist [c₁, c₂]
          ((candidatesFor rv rm rg df (compatibleNames cur row)).insertionSort scoreLE) := by
  obtain ⟨-, -, -, -, row, hrow, hne, hbest, htop⟩ := recommend_ranked_inv h
  have hsorted :
      (((candidatesFor rv rm rg df (compatibleNames cur row)).insertionSort scoreLE)).Pairwise scoreLE :=
    List.sorted_insertionSort scoreLE _
  have htp : top.Pairwise scoreLE := by
    rw [htop]; exact hsorted.sublist (List.take_sublist _ _)
  refine ⟨htp, htp.imp ?_, ?_, row, hrow, htop, ?_⟩
  · intro a b hab
    exact Real.sqrt_le_sqrt (by exact_mod_cast hab)
  · intro h1
    cases hs : (candidatesFor rv rm rg df (compatibleNames cur row)).insertionSort scoreLE with
    | nil =>
      have hp := List.perm_insertionSort scoreLE
        (candidatesFor rv rm rg df (compatibleNames cur row))
      rw [hs] at hp
      exact absurd (List.perm_nil.mp hp.symm) hne
    | cons x xs =>
      obtain ⟨k, rfl⟩ : ∃ k, tn = k + 1 := ⟨tn - 1, by omega⟩
      rw [htop, hs, hbest, hs]
      simp [List.headI]
  · intro c₁ c₂ heq hsub
    exact List.pair_sublist_insertionSort (le_of_eq heq) hsub

/-- C2 witness: the amended ordering claim at the Scenario E run (`limit = 1`
with the Scenario A data): `top` has exactly one element, equal to `best`. -/
theorem top_sorted_stable_best_head_witness :
    (recommend_instance "A" 4 8192 0 demoCatalog demoMatrix 1
      = Except.ok (RecOutcome.ranked "A" 4 8192 0 candC [candC])) ∧
    ([candC] : List Candidate).Pairwise scoreLE ∧
    ([candC] : List Candidate).head? = some candC := by
  have hr : recommend_instance "A" 4 8192 0 demoCatalog demoMatrix 1
      = Except.ok (RecOutcome.ranked "A" 4 8192 0 candC [candC]) := by
    rw [runA 1]; rfl
  have hc := top_sorted_stable_best_head hr
  exact ⟨hr, hc.1, hc.2.2.1 (le_refl 1)⟩

/-- Casting the exact squared score of any candidate `scoreRow` builds to the
reals yields the squared Euclidean spec formula with memory scaled by 1024. -/
theorem score2_real_of_scoreRow {rv rm rg : Int} {t : String} {inst : InstRow} {c : Candidate}
    (h : scoreRow rv rm rg t inst = some c) :
    (c.score2 : ℝ) = ((c.vCPUs : ℝ) - (rv : ℝ)) ^ 2
      + ((c.memoryMiB : ℝ) / 1024 - (rm : ℝ) / 1024) ^ 2
      + ((c.gpus : ℝ) - (rg : ℝ)) ^ 2 := by
  obtain ⟨-, -, -, -, -, -, -, hscore⟩ := scoreRow_eq_some h
  rw [hscore]
  push_cast
  ring

/-- C3: every feasible candidate the engine scores — every entry of the
candidate list built from any compatible set, and in particular `best` and
every entry of `top` on a ranked result — carries the score
`sqrt((vCPUs - requiredVCPUs)² + (memoryMiB/1024 - requiredMemoryMiB/1024)² +
(gpus - requiredGPUs)²)`, with both the candidate's and the required memory
divided by `1024` before differencing. -/
theorem score_matches_euclidean_formula {rv rm rg : Int} {df : Catalog} :
    (∀ (names : List String), ∀ c ∈ candidatesFor rv rm rg df names,
      (c.score2 : ℝ) = ((c.vCPUs : ℝ) - (rv : ℝ)) ^ 2
          + ((c.memoryMiB : ℝ) / 1024 - (rm : ℝ) / 1024) ^ 2
          + ((c.gpus : ℝ) - (rg : ℝ)) ^ 2 ∧
      Real.sqrt (c.score2 : ℝ)
        = Real.sqrt (((c.vCPUs : ℝ) - (rv : ℝ)) ^ 2
          + ((c.memoryMiB : ℝ) / 1024 - (rm : ℝ) / 1024) ^ 2
          + ((c.gpus : ℝ) - (rg : ℝ)) ^ 2)) ∧
    (∀ (cur cur₁ : String) (rv₁ rm₁ rg₁ : Int) (m : CompatMatrix) (tn : Nat)
        (best : Candidate) (top : List Candidate),
      recommend_instance cur rv rm rg df m tn
        = Except.ok (RecOutcome.ranked cur₁ rv₁ rm₁ rg₁ best top) →
      (Real.sqrt (best.score2 : ℝ)
        = Real.sqrt (((best.vCPUs : ℝ) - (rv : ℝ)) ^ 2
          + ((best.memoryMiB : ℝ) / 1024 - (rm : ℝ) / 1024) ^ 2
          + ((best.gpus : ℝ) - (rg : ℝ)) ^ 2)) ∧
      ∀ c ∈ top, Real.sqrt (c.score2 : ℝ)
        = Real.sqrt (((c.vCPUs : ℝ) - (rv : ℝ)) ^ 2
          + ((c.memoryMiB : ℝ) / 1024 - (rm : ℝ) / 1024) ^ 2
          + ((c.gpus : ℝ) - (rg : ℝ)) ^ 2)) := by
  have key : ∀ (names : List String), ∀ c ∈ candidatesFor rv rm rg df names,
      (c.score2 : ℝ) = ((c.vCPUs : ℝ) - (rv : ℝ)) ^ 2
        + ((c.memoryMiB : ℝ) / 1024 - (rm : ℝ) / 1024) ^ 2
        + ((c.gpus : ℝ) - (rg : ℝ)) ^ 2 := by
    intro names c hc
    obtain ⟨t, -, inst, -, hs⟩ := mem_candidatesFor hc
    exact score2_real_of_scoreRow hs
  refine ⟨fun names c hc => ⟨key names c hc, by rw [key names c hc]⟩, ?_⟩
  intro cur cur₁ rv₁ rm₁ rg₁ m tn best top h
  obtain ⟨-, -, -, -, row, hrow, hne, hbest, htop⟩ := recommend_ranked_inv h
  have hmem_best : best ∈ candidatesFor rv rm rg df (compatibleNames cur row) := by
    cases hs : (candidatesFor rv rm rg df (compatibleNames cur row)).insertionSort scoreLE with
    | nil =>
      have hp := List.perm_insertionSort scoreLE
        (candidatesFor rv rm rg df (compatibleNames cur row))
      rw [hs] at hp
      exact absurd (List.perm_nil.mp hp.symm) hne
    | cons x xs =>
      have hx : x ∈ (candidatesFor rv rm rg df (compatibleNames cur row)).insertionSort scoreLE := by
        rw [hs]
        exact List.mem_cons_self x xs
      rw [List.mem_insertionSort] at hx
      have hbx : best = x := by rw [hbest, hs]; rfl
      rw [hbx]
      exact hx
  constructor
  · rw [key _ best hmem_best]
  · intro c hc
    rw [htop] at hc
    have hc2 : c ∈ (candidatesFor rv rm rg df (compatibleNames cur row)).insertionSort scoreLE :=
      (List.take_sublist _ _).subset hc
    rw [List.mem_insertionSort] at hc2
    rw [key _ c hc2]

/-- C3 witness: the score formula at the concrete Scenario A data, both for
the feasible candidate `B` (`score² = (8-4)² + (16-8)² = 80`, present in the
candidate list whatever the limit) and for `best = C` of the ranked run. -/
theorem score_matches_euclidean_formula_witness :
    candB ∈ candidatesFor 4 8192 0 demoCatalog ["B", "C"] ∧
    ((candB.score2 : ℝ) = ((candB.vCPUs : ℝ) - ((4 : Int) : ℝ)) ^ 2
        + ((candB.memoryMiB : ℝ) / 1024 - ((8192 : Int) : ℝ) / 1024) ^ 2
        + ((candB.gpus : ℝ) - ((0 : Int) : ℝ)) ^ 2) ∧
    (recommend_instance "A" 4 8192 0 demoCatalog demoMatrix 3
      = Except.ok (RecOutcome.ranked "A" 4 8192 0 candC [candC, candB])) ∧
    Real.sqrt (candC.score2 : ℝ)
      = Real.sqrt (((candC.vCPUs : ℝ) - ((4 : Int) : ℝ)) ^ 2
        + ((candC.memoryMiB : ℝ) / 1024 - ((8192 : Int) : ℝ) / 1024) ^ 2
        + ((candC.gpus : ℝ) - ((0 : Int) : ℝ)) ^ 2) := by
  have hmem : candB ∈ candidatesFor 4 8192 0 demoCatalog ["B", "C"] := by
    rw [candsA]
    simp
  have hr : recommend_instance "A" 4 8192 0 demoCatalog demoMatrix 3
      = Except.ok (RecOutcome.ranked "A" 4 8192 0 candC [candC, candB]) := by
    rw [runA 3]; rfl
  have hf := @score_matches_euclidean_formula 4 8192 0 demoCatalog
  exact ⟨hmem, (hf.1 ["B", "C"] candB hmem).1, hr,
    (hf.2 "A" "A" 4 8192 0 demoMatrix 3 candC [candC, candB] hr).1⟩

/-- C4: a source absent from the catalog or from the relation's index makes
the engine raise (`Except.error`) for every requirement value; no ranked and
no empty-outcome result is returned. -/
theorem unknown_source_errors {cur : String} {rv rm rg : Int}
    {df : Catalog} {m : CompatMatrix} {tn : Nat}
    (h : df.lookup cur = none ∨ m.lookup cur = none) :
    ∃ msg, recommend_instance cur rv rm rg df m tn = Except.error msg := by
  by_cases hc : (df.lookup cur).isNone = true
  · refine ⟨s!"Current instance {cur} not found in catalog.", ?_⟩
    unfold recommend_instance
    rw [if_pos hc]
  · have hm : m.lookup cur = none := by
      rcases h with h | h
      · exact absurd (by rw [h]; rfl) hc
      · exact h
    refine ⟨s!"{cur} not found in interchangeability matrix index.", ?_⟩
    unfold recommend_instance
    rw [if_neg hc]
    simp only [hm]

/-- C4 witness: an unknown source `Z` makes the concrete run raise. -/
theorem unknown_source_errors_witness :
    (demoCatalog.lookup "Z" = none ∨ demoMatrix.lookup "Z" = none) ∧
    ∃ msg, recommend_instance "Z" 0 0 0 demoCatalog demoMatrix 3 = Except.error msg :=
  ⟨Or.inl rfl, unknown_source_errors (Or.inl rfl)⟩

/-- C5: with a known source, an empty compatible set yields the successful
`noInterchangeable` outcome, and a non-empty compatible set with no feasible
candidate yields the successful `noFeasible` outcome — both `Except.ok`
values carrying the reason string, distinguishable by constructor from the
unknown-source `Except.error`. -/
theorem empty_outcomes_are_ok {cur : String} {rv rm rg : Int}
    {df : Catalog} {m : CompatMatrix} {tn : Nat} {inst : InstRow} {row : MatrixRow}
    (hc : df.lookup cur = some inst) (hm : m.lookup cur = some row) :
    (compatibleNames cur row = [] →
      recommend_instance cur rv rm rg df m tn
        = Except.ok (RecOutcome.noInterchangeable
            s!"No interchangeable instances found for {cur}.")) ∧
    (∀ t ts, compatibleNames cur row = t :: ts →
      candidatesFor rv rm rg df (t :: ts) = [] →
      recommend_instance cur rv rm rg df m tn
        = Except.ok (RecOutcome.noFeasible
            s!"No compatible instance meets requirements (vCPU≥{rv}, Mem≥{rm} MiB, GPU≥{rg}).")) := by
  have hnone : ¬ ((df.lookup cur).isNone = true) := by rw [hc]; simp
  constructor
  · intro hcn
    unfold recommend_instance
    rw [if_neg hnone]
    simp only [hm, hcn]
  · intro t ts hcn hcf
    unfold recommend_instance
    rw [if_neg hnone]
    simp only [hm, hcn, hcf]

/-- C5 witness: Scenario C (relation row marks only the source itself) gives
the `noInterchangeable` outcome; Scenario B (requirement exceeding every
candidate) gives the `noFeasible` outcome. -/
theorem empty_outcomes_are_ok_witness :
    (recommend_instance "A" 0 0 0 demoCatalog demoMatrixSelf 3
      = Except.ok (RecOutcome.noInterchangeable "No interchangeable instances found for A.")) ∧
    (recommend_instance "A" 100 0 0 demoCatalog demoMatrix 3
      = Except.ok (RecOutcome.noFeasible
          "No compatible instance meets requirements (vCPU≥100, Mem≥0 MiB, GPU≥0).")) := by
  constructor
  · exact (empty_outcomes_are_ok
      (show demoCatalog.lookup "A" = some ⟨some 4, some 8192, some 0⟩ from rfl)
      (show demoMatrixSelf.lookup "A" = some [("A", true)] from rfl)).1 (by decide)
  · exact (empty_outcomes_are_ok
      (show demoCatalog.lookup "A" = some ⟨some 4, some 8192, some 0⟩ from rfl)
      (show demoMatrix.lookup "A" = some [("B", true), ("C", true)] from rfl)).2
      "B" ["C"] (by decide) (by decide)

/-- C6: the source never appears among the scored candidates — hence never in
`top` and never as `best` — even when the relation marks `allowed(X, X)`
true. -/
theorem self_never_candidate {cur cur₁ : String} {rv rm rg rv₁ rm₁ rg₁ : Int}
    {df : Catalog} {m : CompatMatrix} {tn : Nat} {best : Candidate} {top : List Candidate}
    (h : recommend_instance cur rv rm rg df m tn
      = Except.ok (RecOutcome.ranked cur₁ rv₁ rm₁ rg₁ best top)) :
    (∀ row, m.lookup cur = some row →
      ∀ c ∈ candidatesFor rv rm rg df (compatibleNames cur row), c.instanceType ≠ cur) ∧
    (∀ c ∈ top, c.instanceType ≠ cur) ∧ best.instanceType ≠ cur := by
  have hcand : ∀ row : MatrixRow, ∀ c ∈ candidatesFor rv rm rg df (compatibleNames cur row),
      c.instanceType ≠ cur := by
    intro row c hcmem
    obtain ⟨t, htmem, inst, -, hs⟩ := mem_candidatesFor hcmem
    obtain ⟨hname, -⟩ := scoreRow_eq_some hs
    rw [hname]
    exact mem_compatibleNames htmem
  obtain ⟨-, -, -, -, row, hrow, hne, hbest, htop⟩ := recommend_ranked_inv h
  refine ⟨fun row' _ => hcand row', ?_, ?_⟩
  · intro c hc
    rw [htop] at hc
    have hc2 : c ∈ (candidatesFor rv rm rg df (compatibleNames cur row)).insertionSort scoreLE :=
      (List.take_sublist _ _).subset hc
    rw [List.mem_insertionSort] at hc2
    exact hcand row c hc2
  · cases hs : (candidatesFor rv rm rg df (compatibleNames cur row)).insertionSort scoreLE with
    | nil =>
      have hp := List.perm_insertionSort scoreLE
        (candidatesFor rv rm rg df (compatibleNames cur row))
      rw [hs] at hp
      exact absurd (List.perm_nil.mp hp.symm) hne
    | cons x xs =>
      have hx : x ∈ (candidatesFor rv rm rg df (compatibleNames cur row)).insertionSort scoreLE := by
        rw [hs]
        exact List.mem_cons_self x xs
      rw [List.mem_insertionSort] at hx
      have hbx : best = x := by rw [hbest, hs]; rfl
      rw [hbx]
      exact hcand row x hx

/-- C6 witness: in the Scenario A run neither top entry nor the best candidate
is the source `A`. -/
theorem self_never_candidate_witness :
    (recommend_instance "A" 4 8192 0 demoCatalog demoMatrix 3
      = Except.ok (RecOutcome.ranked "A" 4 8192 0 candC [candC, candB])) ∧
    (∀ c ∈ [candC, candB], c.instanceType ≠ "A") ∧ candC.instanceType ≠ "A" := by
  have hr : recommend_instance "A" 4 8192 0 demoCatalog demoMatrix 3
      = Except.ok (RecOutcome.ranked "A" 4 8192 0 candC [candC, candB]) := by
    rw [runA 3]; rfl
  have hc := self_never_candidate hr
  exact ⟨hr, hc.2.1, hc.2.2⟩

/-- C7: on a ranked result `len(top) = min(limit, number of feasible
candidates)`; in particular `len(top) ≤ limit` and `len(top)` never exceeds
the number of feasible candidates — all of them are returned, unpadded, when
fewer than `limit` exist. -/
theorem top_length_eq_min {cur cur₁ : String} {rv rm rg rv₁ rm₁ rg₁ : Int}
    {df : Catalog} {m : CompatMatrix} {tn : Nat} {best : Candidate} {top : List Candidate}
    (h : recommend_instance cur rv rm rg df m tn
      = Except.ok (RecOutcome.ranked cur₁ rv₁ rm₁ rg₁ best top)) :
    ∃ row, m.lookup cur = some row ∧
      top.length = min tn (candidatesFor rv rm rg df (compatibleNames cur row)).length ∧
      top.length ≤ tn ∧
      top.length ≤ (candidatesFor rv rm rg df (compatibleNames cur row)).length := by
  obtain ⟨-, -, -, -, row, hrow, -, -, htop⟩ := recommend_ranked_inv h
  have hlen : top.length = min tn (candidatesFor rv rm rg df (compatibleNames cur row)).length := by
    rw [htop, List.length_take, List.length_insertionSort]
  exact ⟨row, hrow, hlen, hlen ▸ min_le_left _ _, hlen ▸ min_le_right _ _⟩

/-- C7 witness: the Scenario A run at `limit = 3` with two feasible candidates
returns both of them: `len(top) = min(3, 2) = 2`. -/
theorem top_length_eq_min_witness :
    (recommend_instance "A" 4 8192 0 demoCatalog demoMatrix 3
      = Except.ok (RecOutcome.ranked "A" 4 8192 0 candC [candC, candB])) ∧
    ([candC, candB] : List Candidate).length
      = min 3 (candidatesFor 4 8192 0 demoCatalog
          (compatibleNames "A" [("B", true), ("C", true)])).length := by
  have hr : recommend_instance "A" 4 8192 0 demoCatalog demoMatrix 3
      = Except.ok (RecOutcome.ranked "A" 4 8192 0 candC [candC, candB]) := by
    rw [runA 3]; rfl
  obtain ⟨row, hrow, hlen, -, -⟩ := top_length_eq_min hr
  have hrw : row = [("B", true), ("C", true)] := by
    rw [show demoMatrix.lookup "A" = some [("B", true), ("C", true)] from rfl] at hrow
    exact (Option.some.inj hrow).symm
  rw [hrw] at hlen
  exact ⟨hr, hlen⟩

/-- C8 counterexample: the engine is not free of side effects on its inputs —
its first two statements assign `matrix_df.index.astype(str)` and
`matrix_df.columns.astype(str)` back onto the caller's dataframe, mutating it
in place.  With an integer row label (a numeric first CSV column) the caller's
matrix holds a different value after the call. -/
theorem matrix_mutated_by_astype :
    (recommend_instance_raw "A" 0 0 0 demoCatalog rawIntMatrix 3).2 ≠ rawIntMatrix := by
  decide

/-- C8 (amended): the engine is a deterministic function of its arguments and
never modifies the catalog (`set_index` returns a copy), but it mutates the
matrix argument in place by casting its axis labels to `str`; the caller's
matrix is value-unchanged exactly in the intended situation in which every
row and column label is already a string. -/
theorem matrix_unchanged_of_string_labels {m : RawMatrix}
    (h : ∀ p ∈ m, (∃ s, p.1 = RawLabel.strLabel s) ∧
      ∀ q ∈ p.2, ∃ s, q.1 = RawLabel.strLabel s)
    {cur : String} {rv rm rg : Int} {df : Catalog} {tn : Nat} :
    (recommend_instance_raw cur rv rm rg df m tn).2 = m := by
  show matrixAfterCall m = m
  unfold matrixAfterCall
  induction m with
  | nil => rfl
  | cons p ps ih =>
    obtain ⟨⟨s, hs⟩, hq⟩ := h p (List.mem_cons_self p ps)
    simp only [List.map_cons, List.cons.injEq]
    constructor
    · obtain ⟨l, row⟩ := p
      simp only at hs
      subst hs
      simp only [Prod.mk.injEq]
      refine ⟨rfl, ?_⟩
      have hrow : row.map (fun q => (q.1.astypeStr, q.2)) = row.map id := by
        apply List.map_congr_left
        intro q hqm
        obtain ⟨s', hs'⟩ := hq q hqm
        obtain ⟨ql, qb⟩ := q
        simp only at hs'
        subst hs'
        rfl
      rw [hrow, List.map_id]
    · exact ih fun r hr => h r (List.mem_cons_of_mem p hr)

/-- C8 witness: a matrix whose labels are already strings comes back
value-unchanged. -/
theorem matrix_unchanged_of_string_labels_witness :
    (recommend_instance_raw "A" 0 0 0 demoCatalog rawStrMatrix 3).2 = rawStrMatrix := by
  apply matrix_unchanged_of_string_labels
  intro p hp
  simp only [rawStrMatrix, List.mem_singleton] at hp
  subst hp
  refine ⟨⟨"A", rfl⟩, ?_⟩
  intro q hq
  simp only [List.mem_singleton] at hq
  subst hq
  exact ⟨"B", rfl⟩

/-- C9: a compatible name with no catalog entry is silently skipped — the loop
yields no candidate for it (no error), the candidate list is identical to the
one computed with all such names filtered away, and every entry of a ranked
top list resolves in the catalog. -/
theorem uncataloged_names_skipped {rv rm rg : Int} {df : Catalog} :
    (∀ t, df.lookup t = none → evalCandidate rv rm rg df t = none) ∧
    (∀ names : List String, candidatesFor rv rm rg df names
      = candidatesFor rv rm rg df (names.filter fun t => (df.lookup t).isSome)) ∧
    (∀ (cur cur₁ : String) (rv₁ rm₁ rg₁ : Int) (m : CompatMatrix) (tn : Nat)
        (best : Candidate) (top : List Candidate),
      recommend_instance cur rv rm rg df m tn
        = Except.ok (RecOutcome.ranked cur₁ rv₁ rm₁ rg₁ best top) →
      ∀ c ∈ top, (df.lookup c.instanceType).isSome) := by
  refine ⟨?_, ?_, ?_⟩
  · intro t h
    simp only [evalCandidate, h]
  · intro names
    induction names with
    | nil => rfl
    | cons t ts ih =>
      by_cases hl : (df.lookup t).isSome
      · cases he : evalCandidate rv rm rg df t <;>
          simp [candidatesFor, List.filterMap_cons, he, List.filter_cons, hl] <;>
          exact ih
      · have hn : df.lookup t = none := Option.not_isSome_iff_eq_none.mp hl
        have he : evalCandidate rv rm rg df t = none := by simp only [evalCandidate, hn]
        simp only [candidatesFor, List.filterMap_cons, he, List.filter_cons,
          Bool.false_eq_true, if_neg hl]
        exact ih
  · intro cur cur₁ rv₁ rm₁ rg₁ m tn best top h c hc
    obtain ⟨-, -, -, -, row, -, -, -, htop⟩ := recommend_ranked_inv h
    rw [htop] at hc
    have hc2 : c ∈ (candidatesFor rv rm rg df (compatibleNames cur row)).insertionSort scoreLE :=
      (List.take_sublist _ _).subset hc
    rw [List.mem_insertionSort] at hc2
    obtain ⟨t, -, inst, hli, hs⟩ := mem_candidatesFor hc2
    obtain ⟨hname, -⟩ := scoreRow_eq_some hs
    rw [hname, hli]
    rfl

/-- C9 witness: the unknown name `Z` in the compatible set is skipped and the
candidate list is unchanged by filtering it away. -/
theorem uncataloged_names_skipped_witness :
    demoCatalog.lookup "Z" = none ∧
    evalCandidate 4 8192 0 demoCatalog "Z" = none ∧
    candidatesFor 4 8192 0 demoCatalog ["B", "Z", "C"]
      = candidatesFor 4 8192 0 demoCatalog
          (["B", "Z", "C"].filter fun t => (demoCatalog.lookup t).isSome) := by
  refine ⟨rfl, ?_, ?_⟩
  · exact uncataloged_names_skipped.1 "Z" rfl
  · exact uncataloged_names_skipped.2.1 ["B", "Z", "C"]

/-- C10 counterexample: a row dict missing all three resource fields is the
empty dict, which is falsy in Python, so `if not inst: continue` skips the
candidate rather than scoring it with zeros — with requirement `(0, 0, 0)`
the claim predicts `E` is feasible with all fields `0`, but the engine skips
it and reports `noFeasible`. -/
theorem empty_row_skipped :
    evalCandidate 0 0 0 namesOnlyCatalog "E" = none ∧
    recommend_instance "A" 0 0 0 namesOnlyCatalog demoMatrixE 3
      = Except.ok (RecOutcome.noFeasible
          "No compatible instance meets requirements (vCPU≥0, Mem≥0 MiB, GPU≥0).") := by
  exact ⟨rfl, by decide⟩

/-- C10 (amended): when the catalog row of a compatible candidate exists and
at least one resource field is present, each missing field is read as `0`
for both the feasibility comparison and the score — the row scores exactly as
the row with `get(col, 0)` materialised — and a candidate with a missing
field is feasible only when the corresponding (non-negative) requirement is
`0`.  A row missing all three fields is falsy in Python and is skipped like a
missing catalog entry. -/
theorem missing_fields_default_zero {rv rm rg : Int} {df : Catalog} {t : String}
    {inst : InstRow} (hl : df.lookup t = some inst)
    (hne : ¬ ((inst.vCPUs.isNone && inst.memoryMiB.isNone && inst.gpus.isNone) = true)) :
    evalCandidate rv rm rg df t = scoreRow rv rm rg t inst ∧
    scoreRow rv rm rg t inst = scoreRow rv rm rg t (fill0 inst) ∧
    (inst.vCPUs = none → 0 ≤ rv →
      ∀ c, scoreRow rv rm rg t inst = some c → rv = 0 ∧ c.vCPUs = 0) ∧
    (inst.memoryMiB = none → 0 ≤ rm →
      ∀ c, scoreRow rv rm rg t inst = some c → rm = 0 ∧ c.memoryMiB = 0) ∧
    (inst.gpus = none → 0 ≤ rg →
      ∀ c, scoreRow rv rm rg t inst = some c → rg = 0 ∧ c.gpus = 0) := by
  refine ⟨?_, ?_, ?_, ?_, ?_⟩
  · simp only [evalCandidate, hl, if_neg hne]
  · rfl
  · intro hv h0 c hc
    obtain ⟨-, hcv, -, -, h5, -, -, -⟩ := scoreRow_eq_some hc
    rw [hv, Option.getD_none] at hcv
    rw [hcv] at h5
    exact ⟨le_antisymm h5 h0, hcv⟩
  · intro hv h0 c hc
    obtain ⟨-, -, hcv, -, -, h5, -, -⟩ := scoreRow_eq_some hc
    rw [hv, Option.getD_none] at hcv
    rw [hcv] at h5
    exact ⟨le_antisymm h5 h0, hcv⟩
  · intro hv h0 c hc
    obtain ⟨-, -, -, hcv, -, -, h5, -⟩ := scoreRow_eq_some hc
    rw [hv, Option.getD_none] at hcv
    rw [hcv] at h5
    exact ⟨le_antisymm h5 h0, hcv⟩

/-- C10 witness: the row for `D` (no `GPUs` field) is scored, not skipped,
reads its missing field as `0`, is feasible when the GPU requirement is `0`,
and any candidate it produces at GPU requirement `0` carries `gpus = 0`. -/
theorem missing_fields_default_zero_witness :
    demoCatalogD.lookup "D" = some instD ∧
    evalCandidate 2 1024 0 demoCatalogD "D" = scoreRow 2 1024 0 "D" instD ∧
    scoreRow 2 1024 0 "D" instD = scoreRow 2 1024 0 "D" (fill0 instD) ∧
    (∀ c, scoreRow 0 0 0 "D" instD = some c → (0 : Int) = 0 ∧ c.gpus = 0) := by
  have h1 := @missing_fields_default_zero 2 1024 0 demoCatalogD "D" instD rfl (by decide)
  have h2 := @missing_fields_default_zero 0 0 0 demoCatalogD "D" instD rfl (by decide)
  exact ⟨rfl, h1.1, h1.2.1, fun c hc => h2.2.2.2.2 rfl (le_refl 0) c hc⟩

end AWSCompat
